import Mathlib

/-!
# learnjs: the client-side core of `public/app.js`

A shallow embedding of the router (`showView`, `problemView`,
`buildCorrectFlash`), the answer checker (`checkAnswer`) and the remote request
wrapper (`sendDbRequest`, `saveAnswer`, `fetchAnswer`), followed by the
properties proved about them.

JavaScript strings are lists of characters, Numbers that hold integers are
`Int` (with a separate `NaN`), a jQuery Deferred is its state, and the DOM is
the part of the page the functions read and write: the children of
`.view-container`, the children of `.nav-list`, and a log of the effects
performed.
-/

namespace LearnJS

/-! ## Strings and numbers -/

/-- A JavaScript string. -/
abbrev JSString := List Char

/-- A Number holding an integer, or `NaN`. Integers are exact here; a double is
exact up to 2^53, which covers every index into an array and every value
compared with an array length. -/
inductive JSNum where
  | nan
  | int (i : Int)
  deriving DecidableEq, Repr

/-- The digit `d` (0..9) as a character. -/
def digitChar (d : Nat) : Char := Char.ofNat (48 + d)

/-- Decimal digits of `n`, most significant first; `fuel` bounds the number of digits. -/
def decimalFuel : Nat → Nat → JSString
  | 0, _ => []
  | fuel + 1, n =>
    if n < 10 then [digitChar n] else decimalFuel fuel (n / 10) ++ [digitChar (n % 10)]

/-- Decimal rendering of a natural number, as `Number.prototype.toString` gives it. -/
def decimal (n : Nat) : JSString := decimalFuel (n + 1) n

/-- The `ToString` of a Number: what `'Problem #' + problemNumber` appends. -/
def JSNum.toJSString : JSNum → JSString
  | .nan => "NaN".toList
  | .int (.ofNat n) => decimal n
  | .int (.negSucc n) => '-' :: decimal (n + 1)

/-- The relational `<` of JavaScript on Numbers: false as soon as one side is `NaN`. -/
def JSNum.lt : JSNum → JSNum → Bool
  | .int a, .int b => decide (a < b)
  | _, _ => false

/-- Number addition `a + b`. -/
def JSNum.add : JSNum → JSNum → JSNum
  | .int a, .int b => .int (a + b)
  | _, _ => .nan

/-- Number subtraction `a - b`. -/
def JSNum.sub : JSNum → JSNum → JSNum
  | .int a, .int b => .int (a - b)
  | _, _ => .nan

/-- The characters `parseInt` skips in front of the number (`StrWhiteSpaceChar`). -/
def isStrWhiteSpace (c : Char) : Bool :=
  let n := c.toNat
  n = 9 || n = 10 || n = 11 || n = 12 || n = 13 || n = 32 || n = 160 || n = 5760 ||
    (8192 ≤ n && n ≤ 8202) || n = 8232 || n = 8233 || n = 8239 || n = 8287 ||
    n = 12288 || n = 65279

/-- Whether `c` is a decimal digit. -/
def isDecimalDigit (c : Char) : Bool := 48 ≤ c.toNat && c.toNat ≤ 57

/-- Value of a string of decimal digits. -/
def digitsValue (ds : JSString) : Nat :=
  ds.foldl (fun v c => 10 * v + (c.toNat - 48)) 0

/-- The sign `parseInt` reads in front of the digits: whether it is a minus,
and the text after it. -/
def readSign : JSString → Bool × JSString
  | '-' :: r => (true, r)
  | '+' :: r => (false, r)
  | r => (false, r)

/-- The call `parseInt(s, 10)` on a string: leading white space is skipped, one
sign is read, then the longest run of decimal digits; no digit gives `NaN`. -/
def parseIntString (s : JSString) : JSNum :=
  let s1 := s.dropWhile isStrWhiteSpace
  let negative := (readSign s1).1
  let s2 := (readSign s1).2
  let ds := s2.takeWhile isDecimalDigit
  if ds.isEmpty then .nan
  else if negative then .int (-(digitsValue ds : Int)) else .int (digitsValue ds)

/-- The call `parseInt(data, 10)` where `data` is a string or `undefined`
(`none`): `undefined` is first turned into the string "undefined". -/
def parseInt (data : Option JSString) : JSNum :=
  match data with
  | none => parseIntString "undefined".toList
  | some s => parseIntString s

/-- The call `s.split(sep)` for a one-character separator: the pieces between
the separators, at least one piece. -/
def split (sep : Char) : JSString → List JSString
  | [] => [[]]
  | c :: cs =>
    if c = sep then [] :: split sep cs
    else
      match split sep cs with
      | [] => [[c]]
      | p :: ps => (c :: p) :: ps

/-- Whether `needle` starts `hay`. -/
def startsWith : JSString → JSString → Bool
  | [], _ => true
  | _ :: _, [] => false
  | a :: as, b :: bs => a == b && startsWith as bs

/-- First occurrence of `needle` in `hay`: the text before it and the text after it. -/
def findFirst (needle : JSString) : JSString → Option (JSString × JSString)
  | [] => if needle.isEmpty then some ([], []) else none
  | c :: cs =>
    if startsWith needle (c :: cs) then some ([], (c :: cs).drop needle.length)
    else (findFirst needle cs).map (fun r => (c :: r.1, r.2))

/-- The dollar sign, which starts a replacement pattern. -/
def dollar : Char := Char.ofNat 36

/-- The `GetSubstitution` operation for a string pattern (no capture groups): in the
replacement text, `$$` stands for one dollar sign, `$&` for the matched text,
`$` followed by a backtick for the text before the match, `$` followed by an
apostrophe for the text after it; every other character, and a dollar sign
followed by anything else, is copied. -/
def getSubstitution (matched before after : JSString) : JSString → JSString
  | [] => []
  | [c] => [c]
  | c :: d :: rest =>
    if c = dollar then
      if d = dollar then dollar :: getSubstitution matched before after rest
      else if d = Char.ofNat 38 then matched ++ getSubstitution matched before after rest
      else if d = Char.ofNat 96 then before ++ getSubstitution matched before after rest
      else if d = Char.ofNat 39 then after ++ getSubstitution matched before after rest
      else c :: getSubstitution matched before after (d :: rest)
    else c :: getSubstitution matched before after (d :: rest)

/-- The call `s.replace(pattern, replacement)` with a string pattern: the first
occurrence is replaced by the expansion of `replacement`; a string without the
pattern is returned as it is. -/
def replace (s pattern replacement : JSString) : JSString :=
  match findFirst pattern s with
  | none => s
  | some (before, after) => before ++ getSubstitution pattern before after replacement ++ after

/-! ## Values, truthiness and Deferreds -/

/-- A value a worker can post back: a primitive or an object. Objects are kept
by reference only. A Number is an integer or `NaN` (`num`), or any other
Number, a non-integer or an infinity (`otherNumber`), which is never zero. -/
inductive JSVal where
  | undefined
  | null
  | bool (b : Bool)
  | num (n : JSNum)
  | otherNumber (rendering : JSString)
  | bigint (i : Int)
  | str (s : JSString)
  | obj (ref : Nat)
  deriving DecidableEq, Repr

/-- The `ToBoolean` conversion: the test an `if (e.data)` performs. -/
def toBoolean : JSVal → Bool
  | .undefined => false
  | .null => false
  | .bool b => b
  | .num .nan => false
  | .num (.int i) => decide (i ≠ 0)
  | .otherNumber _ => true
  | .bigint i => decide (i ≠ 0)
  | .str s => !s.isEmpty
  | .obj _ => true

/-- State of a jQuery Deferred: it settles once, and `resolve` or `reject` on a
settled Deferred does nothing. -/
inductive Deferred (α ε : Type) where
  | pending
  | resolved (value : α)
  | rejected (reason : ε)
  deriving DecidableEq, Repr

/-- The call `d.resolve(v)`. -/
def Deferred.resolve {α ε : Type} : Deferred α ε → α → Deferred α ε
  | .pending, v => .resolved v
  | d, _ => d

/-- The call `d.reject(e)`. -/
def Deferred.reject {α ε : Type} : Deferred α ε → ε → Deferred α ε
  | .pending, e => .rejected e
  | d, _ => d

/-! ## Problems and the answer checker -/

/-- One entry of `learnjs.problems`. -/
structure Problem where
  description : JSString
  code : JSString
  deriving DecidableEq, Repr

/-- The problem list of the application, `learnjs.problems`. -/
def problems : List Problem :=
  [ { description := "What is truth?".toList,
      code := "function problem() \x7b return __; \x7d".toList },
    { description := "Simple Math".toList,
      code := "function problem() \x7b return 42 === 6 * __; \x7d".toList } ]

/-- The source `checkAnswer` posts to the worker:
`problemData.code.replace('__', answer.val()) + '; problem();'`. -/
def checkAnswerTest (problemData : Problem) (answer : JSString) : JSString :=
  replace problemData.code "__".toList answer ++ "; problem();".toList

/-- The handler `worker.onmessage` of `checkAnswer`, applied to the state of
`def` and the `data` of one message. `def.reject()` passes no reason. -/
def onmessage (d : Deferred JSVal JSVal) (data : JSVal) : Deferred JSVal JSVal :=
  if toBoolean data then d.resolve data else d.reject .undefined

/-- The function `checkAnswer` of a problem view whose problem is `problemData`
(`none` when the index was out of range, in which case reading `.code` throws):
the source posted to the worker, and the Deferred it returns once the messages
`replies` of the worker have been delivered. -/
def checkAnswer (problemData : Option Problem) (answer : JSString) (replies : List JSVal) :
    Option (JSString × Deferred JSVal JSVal) :=
  problemData.map fun p => (checkAnswerTest p answer, replies.foldl onmessage .pending)

/-! ## The remote request wrapper and the answer store -/

/-- An error object handed to the `error` handler of a request. -/
structure JSError where
  code : JSString
  message : JSString
  deriving DecidableEq, Repr

/-- What a request promise can be rejected with: an error object, or some other
object of the program named by the variable that holds it. -/
inductive Rejection where
  | error (e : JSError)
  | object (name : JSString)
  deriving DecidableEq, Repr

/-- The value `learnjs.identity` resolves with. `refresh` is the settled state
of the promise a call `identity.refresh()` returns. -/
structure Identity where
  id : JSString
  email : JSString
  refresh : Deferred JSString JSError
  deriving DecidableEq, Repr

/-- The key of an answer record. -/
structure AnswerKey where
  userId : JSString
  problemId : JSNum
  deriving DecidableEq, Repr

/-- An answer record, the `Item` of a put. -/
structure AnswerItem where
  userId : JSString
  problemId : JSNum
  answer : JSString
  deriving DecidableEq, Repr

/-- Key fields of an item. -/
def AnswerItem.key (i : AnswerItem) : AnswerKey := { userId := i.userId, problemId := i.problemId }

/-- Parameters of `db.put`. -/
structure PutParams where
  TableName : JSString
  Item : AnswerItem
  deriving DecidableEq, Repr

/-- Parameters of `db.get`. -/
structure GetParams where
  TableName : JSString
  Key : AnswerKey
  deriving DecidableEq, Repr

/-- The `data` of a response: the empty object, or an object with an `Item`. -/
inductive DbData where
  | empty
  | item (Item : AnswerItem)
  deriving DecidableEq, Repr

/-- Modelled from the spec: the remote store, an external service with no code
in the repository, as a map from a table name and a key `(userId, problemId)`
to the record stored under it. -/
abbrev Store := JSString → AnswerKey → Option AnswerItem

/-- The store without any record. -/
def Store.empty : Store := fun _ _ => none

/-- Modelled from the spec: a put-item writes the record under its key,
replacing what was there. -/
def Store.put (s : Store) (table : JSString) (item : AnswerItem) : Store :=
  fun t k => if t = table ∧ k = item.key then some item else s t k

/-- Modelled from the spec: a get-item returns the record under the key, if any. -/
def Store.get (s : Store) (table : JSString) (key : AnswerKey) : DbData :=
  match s table key with
  | some item => .item item
  | none => .empty

/-- How the service answers one request: it carries it out, refuses it with an
error, or never answers. -/
inductive NetOutcome where
  | ok
  | fail (e : JSError)
  | silent
  deriving DecidableEq, Repr

/-- The remote side: the store and the answers the service will give to the
requests sent from now on, in order (none left: no answer). -/
structure Remote where
  store : Store
  net : List NetOutcome

/-- The completion event a request emits after `send()`. -/
inductive Completion where
  | success (data : DbData)
  | error (e : JSError)
  | none
  deriving DecidableEq, Repr

/-- A pending remote operation (an `AWS.Request`): `run` is what `send()` does
to the remote side and the completion event that follows. -/
structure Request where
  run : Remote → Completion × Remote

/-- The request `db.put(params)` of a `DocumentClient`. -/
def dbPut (params : PutParams) : Request where
  run r :=
    match r.net with
    | [] => (.none, r)
    | .silent :: rest => (.none, { r with net := rest })
    | .fail e :: rest => (.error e, { r with net := rest })
    | .ok :: rest =>
      (.success .empty, { store := r.store.put params.TableName params.Item, net := rest })

/-- The request `db.get(params)` of a `DocumentClient`. -/
def dbGet (params : GetParams) : Request where
  run r :=
    match r.net with
    | [] => (.none, r)
    | .silent :: rest => (.none, { r with net := rest })
    | .fail e :: rest => (.error e, { r with net := rest })
    | .ok :: rest => (.success (r.store.get params.TableName params.Key), { r with net := rest })

/-- A call made on the request object. -/
inductive ReqCall where
  | on (event : JSString)
  | send
  deriving DecidableEq, Repr

/-- What the request wrapper acts on: the remote side, the calls made on
request objects so far, and how often `identity.refresh` and a `retry`
callback have been invoked. -/
structure World where
  remote : Remote
  reqCalls : List ReqCall
  refreshCalls : Nat
  retryCalls : Nat

/-- A promise of the answer store. -/
abbrev DbPromise := Deferred DbData Rejection

/-- The variables in scope in the callback `function() { promise.reject(resp); }`
that `sendDbRequest` passes for a failed refresh, innermost first: the
`identity` of the enclosing callback, the `error` of the error handler, the
parameters and the local of `sendDbRequest`, and the globals the file
declares. The `resp` of the success handler is a parameter of that other
function and is not among them. -/
def failureCallbackScope (error : JSError) : List (JSString × Rejection) :=
  [ ("identity".toList, .object "identity".toList),
    ("error".toList, .error error),
    ("req".toList, .object "req".toList),
    ("retry".toList, .object "retry".toList),
    ("promise".toList, .object "promise".toList),
    ("learnjs".toList, .object "learnjs".toList),
    ("googleSignIn".toList, .object "googleSignIn".toList),
    ("refresh".toList, .object "refresh".toList) ]

/-- The error code that stands for expired credentials. -/
def credentialsErrorCode : JSString := "CredentialsError".toList

/-- The `error` handler `sendDbRequest` registers on the request, run on the
state of `promise`. For a `CredentialsError` it waits for the identity (`none`:
never resolved, nothing runs), calls `identity.refresh()`, and on success calls
`retry()`; the promise `retry()` returns goes to the chain started by
`learnjs.identity.then`, whose result the handler drops. On a failed refresh
the callback evaluates `promise.reject(resp)`: an unbound `resp` throws a
ReferenceError before `reject` is called. Any other error rejects `promise`. -/
def errorHandler (identity : Option Identity) (retry : World → DbPromise × World)
    (error : JSError) (promise : DbPromise) (w : World) : DbPromise × World :=
  if error.code = credentialsErrorCode then
    match identity with
    | none => (promise, w)
    | some identity =>
      let w := { w with refreshCalls := w.refreshCalls + 1 }
      match identity.refresh with
      | .pending => (promise, w)
      | .resolved _ =>
        let (_, w) := retry { w with retryCalls := w.retryCalls + 1 }
        (promise, w)
      | .rejected _ =>
        match (failureCallbackScope error).lookup "resp".toList with
        | some resp => (promise.reject resp, w)
        | none => (promise, w)
  else (promise.reject (.error error), w)

/-- The function `learnjs.sendDbRequest(req, retry)`: the promise it returns and
the world, once the completion event of the request (if any) has been handled. -/
def sendDbRequest (identity : Option Identity) (req : Request)
    (retry : World → DbPromise × World) (w : World) : DbPromise × World :=
  let promise : DbPromise := .pending
  let w := { w with reqCalls := w.reqCalls ++ [ReqCall.on "error".toList] }
  let w := { w with reqCalls := w.reqCalls ++ [ReqCall.on "success".toList] }
  let w := { w with reqCalls := w.reqCalls ++ [ReqCall.send] }
  let (completion, remote) := req.run w.remote
  let w := { w with remote := remote }
  match completion with
  | .none => (promise, w)
  | .success data => (promise.resolve data, w)
  | .error error => errorHandler identity retry error promise w

/-- The parameters `saveAnswer` passes to `db.put`. -/
def saveParams (identity : Identity) (problemId : JSNum) (answer : JSString) : PutParams :=
  { TableName := "learnjs".toList,
    Item := { userId := identity.id, problemId := problemId, answer := answer } }

/-- The parameters `fetchAnswer` passes to `db.get`. -/
def fetchParams (identity : Identity) (problemId : JSNum) : GetParams :=
  { TableName := "learnjs".toList,
    Key := { userId := identity.id, problemId := problemId } }

/-- The function `learnjs.saveAnswer(problemId, answer)`; the promise returned by
`learnjs.identity.then` takes the state of the promise of `sendDbRequest`. The
source puts no bound on the re-authentication recursion: `depth` is how many
nested retries are unfolded, and a retry beyond it is left pending. -/
def saveAnswer (depth : Nat) (identity : Option Identity) (problemId : JSNum)
    (answer : JSString) (w : World) : DbPromise × World :=
  match identity with
  | none => (.pending, w)
  | some i =>
    sendDbRequest identity (dbPut (saveParams i problemId answer))
      (match depth with
        | 0 => fun w => (.pending, w)
        | d + 1 => saveAnswer d identity problemId answer) w

/-- The function `learnjs.fetchAnswer(problemId)`, with `depth` as for `saveAnswer`. -/
def fetchAnswer (depth : Nat) (identity : Option Identity) (problemId : JSNum)
    (w : World) : DbPromise × World :=
  match identity with
  | none => (.pending, w)
  | some i =>
    sendDbRequest identity (dbGet (fetchParams i problemId))
      (match depth with
        | 0 => fun w => (.pending, w)
        | d + 1 => fetchAnswer d identity problemId) w

/-! ## The page and the router -/

/-- A child of `.nav-list`: an item of the static markup, or a clone of the
`skip-btn` template, known by the node created for it and the `href` of its link. -/
inductive NavItem where
  | static (label : JSString)
  | skipBtn (node : Nat) (href : JSString)
  deriving DecidableEq, Repr

/-- A view built by one of the view functions. A problem view carries the text
of its `.title`, the texts `applyObject` wrote (by `data-name`), the
`problemNumber` and `problemData` its handlers close over, and, when it bound a
`removingView` listener, the node of the skip button that listener removes. -/
inductive View where
  | landing
  | profile (email : Option JSString)
  | problem (title : JSString) (fields : List (JSString × JSString)) (problemNumber : JSNum)
      (problemData : Option Problem) (buttonItem : Option Nat)
  deriving DecidableEq, Repr

/-- A value found under a key of the `routes` object of `showView`: one of the
three view functions, or a member the object inherits from `Object.prototype`. -/
inductive ViewFn where
  | problemView
  | profileView
  | landingView
  | inherited (name : JSString)
  deriving DecidableEq, Repr

/-- An effect of `showView` on the page: the broadcast of an event, the
emptying of the container, the evaluation of the call `viewFn(hashParts[1])`,
and a TypeError thrown by that call, which ends `showView` before anything is
appended. -/
inductive Effect where
  | broadcast (name : JSString)
  | emptied
  | called (viewFn : ViewFn)
  | threw
  deriving DecidableEq, Repr

/-- The page: the children of `.view-container`, the children of `.nav-list`,
the number of nodes cloned so far (the next clone is node `nextNode`), and the
effects performed so far. -/
structure Page where
  container : List View
  navList : List NavItem
  nextNode : Nat
  effects : List Effect
  deriving DecidableEq, Repr

/-- The page as loaded: nothing mounted, the static navigation items only. -/
def Page.initial (statics : List JSString) : Page :=
  { container := [], navList := statics.map NavItem.static, nextNode := 0, effects := [] }

/-- The keys `showView` writes into `routes`. -/
def knownRoutes : List JSString :=
  ["#problem".toList, "#profile".toList, "#".toList, []]

/-- The members every object literal inherits from `Object.prototype` in a
browser; each is a function or an object, hence truthy. -/
def objectPrototypeNames : List JSString :=
  [ "constructor".toList, "toString".toList, "toLocaleString".toList, "valueOf".toList,
    "hasOwnProperty".toList, "isPrototypeOf".toList, "propertyIsEnumerable".toList,
    "__proto__".toList, "__defineGetter__".toList, "__defineSetter__".toList,
    "__lookupGetter__".toList, "__lookupSetter__".toList ]

/-- The members inherited from `Object.prototype` whose call as
`viewFn(hashParts[1])`, with no receiver, returns: `Object` itself,
`toString`, and `isPrototypeOf` on an argument that is no object. The call of
any other member throws a TypeError: `__proto__` holds an object, which is no
function, and the remaining functions first convert the missing receiver to an
object. -/
def inheritedReturning : List JSString :=
  ["constructor".toList, "toString".toList, "isPrototypeOf".toList]

/-- The lookup `routes[key]` of `showView`: an own key of the object literal, or
a member found on its prototype; `none` is `undefined`. -/
def routes (key : JSString) : Option ViewFn :=
  if key = "#problem".toList then some .problemView
  else if key = "#profile".toList then some .profileView
  else if key = "#".toList then some .landingView
  else if key = [] then some .landingView
  else if key ∈ objectPrototypeNames then some (.inherited key)
  else none

/-- The element `xs[i]` of an array for a Number `i`; `none` is `undefined`. -/
def index {α : Type} (xs : List α) (i : JSNum) : Option α :=
  match i with
  | .int (.ofNat n) => xs[n]?
  | _ => none

/-- The texts `learnjs.applyObject(obj, elem)` writes, by `data-name`: one per
key of `obj`, none for `undefined`. -/
def applyObject (obj : Option Problem) : List (JSString × JSString) :=
  match obj with
  | none => []
  | some p => [("description".toList, p.description), ("code".toList, p.code)]

/-- The node of a skip button, if the item is one. -/
def NavItem.skipNode : NavItem → Option Nat
  | .skipBtn node _ => some node
  | .static _ => none

/-- The nodes of the skip buttons in a navigation list. -/
def skipNodes (nav : List NavItem) : List Nat := nav.filterMap NavItem.skipNode

/-- The call `buttonItem.remove()`: the node leaves the navigation list. -/
def removeNode (node : Nat) (nav : List NavItem) : List NavItem :=
  nav.filter fun item => item.skipNode != some node

/-- The skip button a view removes on `removingView`, if it bound the listener. -/
def View.buttonItem : View → Option Nat
  | .problem _ _ _ _ b => b
  | _ => none

/-- The listeners of a view run for the event `name`; only a problem view with
a skip button listens, to `removingView`. -/
def View.trigger (name : JSString) (nav : List NavItem) (v : View) : List NavItem :=
  match v.buttonItem with
  | some node => if name = "removingView".toList then removeNode node nav else nav
  | none => nav

/-- The function `learnjs.triggerEvent(name, args)`: the event is triggered on
every child of `.view-container`. -/
def triggerEvent (name : JSString) (page : Page) : Page :=
  { page with
    navList := page.container.foldl (View.trigger name) page.navList
    effects := page.effects ++ [Effect.broadcast name] }

/-- The function `learnjs.problemView(data)` on the problem list `ps`: the view
it returns and the page after it ran. The prefill of `.answer` by `fetchAnswer`
and the click handler are continuations that touch only the view's own
`.answer` and `.result` elements; they are `fetchAnswer` and `checkAnswer` above. -/
def problemView (ps : List Problem) (data : Option JSString) (page : Page) : View × Page :=
  let problemNumber := parseInt data
  let problemData := index ps (problemNumber.sub (.int 1))
  let title := "Problem #".toList ++ problemNumber.toJSString
  if problemNumber.lt (.int ps.length) then
    let buttonItem := page.nextNode
    let href := "#problem-".toList ++ (problemNumber.add (.int 1)).toJSString
    (.problem title (applyObject problemData) problemNumber problemData (some buttonItem),
      { page with
        navList := page.navList ++ [NavItem.skipBtn buttonItem href]
        nextNode := page.nextNode + 1 })
  else
    (.problem title (applyObject problemData) problemNumber problemData none, page)

/-- The function `learnjs.profileView()`: the `.email` text is set once the
identity is resolved. -/
def profileView (identity : Option Identity) : View :=
  .profile (identity.map Identity.email)

/-- The function `learnjs.landingView()`. -/
def landingView : View := .landing

/-- The link of the flash `learnjs.buildCorrectFlash` returns: its `href`, and
its text when the function sets it (`none`: the text of the template). -/
structure FlashLink where
  href : JSString
  text : Option JSString
  deriving DecidableEq, Repr

/-- The function `learnjs.buildCorrectFlash(problemNum)` on the problem list `ps`. -/
def buildCorrectFlash (ps : List Problem) (problemNum : JSNum) : FlashLink :=
  if problemNum.lt (.int ps.length) then
    { href := "#problem-".toList ++ (problemNum.add (.int 1)).toJSString, text := none }
  else
    { href := [], text := some "You are Finished!".toList }

/-- The page once `view` is appended to `.view-container`. -/
def Page.append (page : Page) (view : View) : Page :=
  { page with container := page.container ++ [view] }

/-- The function `learnjs.showView(hash)` on the problem list `ps`. When the
first part of the hash has a route, `removingView` is broadcast, the container
is emptied, then the view function is called and its result appended. The
application calls `showView` with the hash of the location only, a string that
is empty or starts with `#`, and such a string never names a member inherited
from `Object.prototype`. For any other string that names one, the first two
steps happen the same way and the call of the member is evaluated: it throws a
TypeError, or it returns a value that is no element, so that no view is among
the children afterwards. -/
def showView (ps : List Problem) (identity : Option Identity) (hash : JSString)
    (page : Page) : Page :=
  let hashParts := split '-' hash
  match routes (hashParts.headD []) with
  | none => page
  | some viewFn =>
    let page := triggerEvent "removingView".toList page
    let page := { page with container := [], effects := page.effects ++ [Effect.emptied] }
    let page := { page with effects := page.effects ++ [Effect.called viewFn] }
    match viewFn with
    | .problemView =>
      let (view, page) := problemView ps hashParts[1]? page
      page.append view
    | .profileView => page.append (profileView identity)
    | .landingView => page.append landingView
    | .inherited name =>
      if name ∈ inheritedReturning then page
      else { page with effects := page.effects ++ [Effect.threw] }

/-- The page after the hash took the values `hashes` one after the other, each
change handled by `showView`. -/
def hashChanges (ps : List Problem) (identity : Option Identity) (hashes : List JSString)
    (page : Page) : Page :=
  hashes.foldl (fun p hash => showView ps identity hash p) page

/-! ## Definitions used to state the properties -/

/-- A request whose `send()` is followed by the `error` event with `e`. -/
def failingRequest (e : JSError) : Request where
  run r := (.error e, r)

/-- An error whose code is `CredentialsError`. -/
def credentialsError (message : JSString) : JSError :=
  { code := credentialsErrorCode, message := message }

/-- The world before anything was sent, for a store and the answers of the service. -/
def World.start (store : Store) (net : List NetOutcome) : World :=
  { remote := { store := store, net := net }, reqCalls := [], refreshCalls := 0, retryCalls := 0 }

/-- An identity for examples. -/
def sampleIdentity : Identity :=
  { id := "user-1".toList, email := "a@example.org".toList, refresh := .pending }

/-- The world once the two handlers are registered and `send()` has run. -/
def World.sent (w : World) (remote : Remote) : World :=
  { remote := remote,
    reqCalls := w.reqCalls ++ [ReqCall.on "error".toList, ReqCall.on "success".toList, ReqCall.send],
    refreshCalls := w.refreshCalls,
    retryCalls := w.retryCalls }

/-- Number of places at which `needle` occurs in a string. -/
def occurrences (needle : JSString) : JSString → Nat
  | [] => if needle.isEmpty then 1 else 0
  | c :: cs => (if startsWith needle (c :: cs) then 1 else 0) + occurrences needle cs

/-- The page `showView` hands to the view function `viewFn`: `removingView` was
broadcast and the container emptied. -/
def Page.unmounted (viewFn : ViewFn) (page : Page) : Page :=
  let page := triggerEvent "removingView".toList page
  let page := { page with container := [], effects := page.effects ++ [Effect.emptied] }
  { page with effects := page.effects ++ [Effect.called viewFn] }

/-- The page once the view function `viewFn` was called with `arg` and its
result appended. -/
def Page.mounted (ps : List Problem) (identity : Option Identity) (arg : Option JSString)
    (viewFn : ViewFn) (page : Page) : Page :=
  match viewFn with
  | .problemView => (problemView ps arg page).2.append (problemView ps arg page).1
  | .profileView => page.append (profileView identity)
  | .landingView => page.append landingView
  | .inherited name =>
    if name ∈ inheritedReturning then page
    else { page with effects := page.effects ++ [Effect.threw] }

/-- Whether a view is a problem view whose problem number is below the number
of problems. -/
def View.wantsSkip (ps : List Problem) : View → Bool
  | .problem _ _ n _ _ => n.lt (.int ps.length)
  | _ => false

/-- What holds of the page between two hash changes: the skip buttons of the
navigation list are those the mounted views will remove, their nodes were
cloned before, at most one view is mounted, and a view owns a skip button
exactly when it is a problem view with a problem number below the number of
problems. -/
def Page.Consistent (ps : List Problem) (page : Page) : Prop :=
  skipNodes page.navList = page.container.filterMap View.buttonItem ∧
    (∀ b ∈ skipNodes page.navList, b < page.nextNode) ∧
    page.container.length ≤ 1 ∧
    ∀ v ∈ page.container, v.buttonItem.isSome = v.wantsSkip ps

/-- The hashes whose first part is a known route. -/
def matchesKnownRoute (hash : JSString) : Prop := (split '-' hash).headD [] ∈ knownRoutes

/-- Whether a hash has a known route can be computed. -/
instance matchesKnownRoute.decidable : DecidablePred matchesKnownRoute :=
  fun hash => inferInstanceAs (Decidable ((split '-' hash).headD [] ∈ knownRoutes))

/-! ## The answer checker: messages of the worker -/

/-- A settled Deferred ignores later messages. -/
theorem foldl_onmessage_settled (later : List JSVal) (d : Deferred JSVal JSVal)
    (hd : d ≠ .pending) : later.foldl onmessage d = d := by
  induction later with
  | nil => rfl
  | cons m ms ih =>
    have hstep : onmessage d m = d := by
      cases d with
      | pending => exact absurd rfl hd
      | resolved v => unfold onmessage; split <;> rfl
      | rejected e => unfold onmessage; split <;> rfl
    simp only [List.foldl_cons, hstep]
    exact ih

/-- The first message settles a pending Deferred. -/
theorem onmessage_pending (data : JSVal) :
    onmessage .pending data =
      if toBoolean data then Deferred.resolved data else Deferred.rejected JSVal.undefined := by
  unfold onmessage
  split <;> rfl

/-- C5: for every message `d` the worker delivers first, and whatever messages
follow it, the Deferred `checkAnswer` returns is resolved with `d` when `d` is
truthy and rejected when `d` is falsy: resolved if and only if truthy, rejected
if and only if falsy, never both and never neither, and the later messages
leave the outcome of the first as it is. The falsy values are `undefined`,
`null`, `false`, zero, `NaN` and the empty string (and the BigInt zero). -/
theorem checkAnswer_outcome_by_truthiness (p : Problem) (answer : JSString) (d : JSVal)
    (later : List JSVal) :
    (checkAnswer (some p) answer (d :: later)).map Prod.snd =
        some (if toBoolean d then Deferred.resolved d else Deferred.rejected JSVal.undefined) ∧
      (onmessage .pending d = .resolved d ↔ toBoolean d = true) ∧
      (onmessage .pending d = .rejected .undefined ↔ toBoolean d = false) ∧
      onmessage .pending d ≠ .pending ∧
      later.foldl onmessage (onmessage .pending d) = onmessage .pending d ∧
      (toBoolean d = false ↔
        d = .undefined ∨ d = .null ∨ d = .bool false ∨ d = .num (.int 0) ∨ d = .num .nan ∨
          d = .str [] ∨ d = .bigint 0) := by
  have hne : onmessage .pending d ≠ .pending := by
    rw [onmessage_pending]; split <;> simp
  refine ⟨?_, ?_, ?_, hne, foldl_onmessage_settled later _ hne, ?_⟩
  · simp only [checkAnswer, Option.map_some', List.foldl_cons]
    rw [foldl_onmessage_settled later _ hne, onmessage_pending]
  · rw [onmessage_pending]; cases h : toBoolean d <;> simp
  · rw [onmessage_pending]; cases h : toBoolean d <;> simp
  · cases d with
    | undefined => simp [toBoolean]
    | null => simp [toBoolean]
    | bool b => cases b <;> simp [toBoolean]
    | num n =>
      cases n with
      | nan => simp [toBoolean]
      | int i => simp [toBoolean]
    | otherNumber r => simp [toBoolean]
    | bigint i => simp [toBoolean]
    | str s => cases s <;> simp [toBoolean]
    | obj r => simp [toBoolean]

/-! ## The request wrapper -/

/-- The variable `resp` is not bound where the refresh-failure callback runs. -/
theorem failureCallbackScope_resp (e : JSError) :
    (failureCallbackScope e).lookup "resp".toList = none := by
  simp [failureCallbackScope, List.lookup]

/-- After an `error` event, `sendDbRequest` is what the error handler makes of
the pending promise. -/
theorem sendDbRequest_of_error (identity : Option Identity) (req : Request)
    (retry : World → DbPromise × World) (w : World) (e : JSError) (remote : Remote)
    (hrun : req.run w.remote = (Completion.error e, remote)) :
    sendDbRequest identity req retry w
      = errorHandler identity retry e Deferred.pending (w.sent remote) := by
  simp [sendDbRequest, hrun, World.sent]

/-- After a `success` event, `sendDbRequest` resolves with the data. -/
theorem sendDbRequest_of_success (identity : Option Identity) (req : Request)
    (retry : World → DbPromise × World) (w : World) (data : DbData) (remote : Remote)
    (hrun : req.run w.remote = (Completion.success data, remote)) :
    sendDbRequest identity req retry w = (Deferred.resolved data, w.sent remote) := by
  simp [sendDbRequest, hrun, World.sent, Deferred.resolve]

/-- The error handler on an error that is no `CredentialsError`. -/
theorem errorHandler_other (identity : Option Identity) (retry : World → DbPromise × World)
    (e : JSError) (promise : DbPromise) (w : World) (hcode : e.code ≠ credentialsErrorCode) :
    errorHandler identity retry e promise w = (promise.reject (Rejection.error e), w) := by
  unfold errorHandler
  rw [if_neg hcode]

/-- The error handler on a `CredentialsError` when the refresh succeeds. -/
theorem errorHandler_refreshed (i : Identity) (retry : World → DbPromise × World)
    (e : JSError) (promise : DbPromise) (w : World) (token : JSString)
    (hcode : e.code = credentialsErrorCode) (hrefresh : i.refresh = Deferred.resolved token) :
    errorHandler (some i) retry e promise w
      = (promise,
          (retry { w with refreshCalls := w.refreshCalls + 1, retryCalls := w.retryCalls + 1 }).2) := by
  unfold errorHandler
  rw [if_pos hcode]
  simp only [hrefresh]

/-- The error handler on a `CredentialsError` when the refresh fails. -/
theorem errorHandler_refresh_failed (i : Identity) (retry : World → DbPromise × World)
    (e : JSError) (promise : DbPromise) (w : World) (r : JSError)
    (hcode : e.code = credentialsErrorCode) (hrefresh : i.refresh = Deferred.rejected r) :
    errorHandler (some i) retry e promise w
      = (promise, { w with refreshCalls := w.refreshCalls + 1 }) := by
  unfold errorHandler
  rw [if_pos hcode]
  simp only [hrefresh, failureCallbackScope_resp]

/-- C1 (the code at the failing case): when the `error` handler fires with a
`CredentialsError`, the identity is resolved and `identity.refresh()` succeeds,
`retry()` is invoked exactly once, but the promise `sendDbRequest` returned
stays pending whatever the promise of `retry()` does: the outcome of the retry
is not adopted. So a `saveAnswer` whose first request fails with a
`CredentialsError` and whose retried request is carried out writes the answer,
and its promise stays pending. -/
theorem sendDbRequest_retry_outcome_not_adopted (id email token message : JSString)
    (retryPromise : DbPromise) (w : World) :
    (sendDbRequest (some { id := id, email := email, refresh := .resolved token })
        (failingRequest (credentialsError message)) (fun w1 => (retryPromise, w1)) w).2.retryCalls
        = w.retryCalls + 1 ∧
      (sendDbRequest (some { id := id, email := email, refresh := .resolved token })
        (failingRequest (credentialsError message)) (fun w1 => (retryPromise, w1)) w).1
        = Deferred.pending ∧
      (sendDbRequest (some { id := id, email := email, refresh := .resolved token })
        (failingRequest (credentialsError message))
        (fun w1 => (Deferred.resolved DbData.empty, w1)) w).1
        ≠ Deferred.resolved DbData.empty ∧
      (saveAnswer 1 (some { id := id, email := email, refresh := .resolved token }) (.int 1)
        "true".toList (World.start Store.empty [.fail (credentialsError message), .ok])).1
        = Deferred.pending ∧
      (saveAnswer 1 (some { id := id, email := email, refresh := .resolved token }) (.int 1)
        "true".toList
        (World.start Store.empty [.fail (credentialsError message), .ok])).2.retryCalls = 1 ∧
      (saveAnswer 1 (some { id := id, email := email, refresh := .resolved token }) (.int 1)
        "true".toList
        (World.start Store.empty [.fail (credentialsError message), .ok])).2.remote.store
          "learnjs".toList { userId := id, problemId := .int 1 }
        = some { userId := id, problemId := .int 1, answer := "true".toList } := by
  have h := fun (retry : World → DbPromise × World) =>
    (sendDbRequest_of_error (some { id := id, email := email, refresh := .resolved token })
      (failingRequest (credentialsError message)) retry w (credentialsError message) w.remote
      rfl).trans
    (errorHandler_refreshed { id := id, email := email, refresh := .resolved token } retry
      (credentialsError message) Deferred.pending (w.sent w.remote) token rfl rfl)
  rw [h, h]
  refine ⟨by simp [World.sent], rfl, by simp, ?_, ?_, ?_⟩
  · simp [saveAnswer, sendDbRequest, errorHandler, dbPut, World.start, credentialsError]
  · simp [saveAnswer, sendDbRequest, errorHandler, dbPut, World.start, credentialsError,
      Deferred.resolve]
  · simp [saveAnswer, sendDbRequest, errorHandler, dbPut, World.start, credentialsError,
      Deferred.resolve, Store.put, saveParams, AnswerItem.key]

/-- C2 (the code at the failing case): when the `error` handler fires with a
`CredentialsError` `e`, the identity is resolved and `identity.refresh()` fails,
`retry()` is not invoked, and the promise `sendDbRequest` returned is not
rejected with `e`: the callback reads the unbound variable `resp`, and the
promise stays pending. -/
theorem sendDbRequest_refresh_failure_leaves_pending (id email message : JSString)
    (refreshError : JSError) (retry : World → DbPromise × World) (w : World) :
    (sendDbRequest (some { id := id, email := email, refresh := .rejected refreshError })
        (failingRequest (credentialsError message)) retry w).1 = Deferred.pending ∧
      (sendDbRequest (some { id := id, email := email, refresh := .rejected refreshError })
        (failingRequest (credentialsError message)) retry w).1
        ≠ Deferred.rejected (Rejection.error (credentialsError message)) ∧
      (sendDbRequest (some { id := id, email := email, refresh := .rejected refreshError })
        (failingRequest (credentialsError message)) retry w).2.retryCalls = w.retryCalls := by
  have h :=
    (sendDbRequest_of_error (some { id := id, email := email, refresh := .rejected refreshError })
      (failingRequest (credentialsError message)) retry w (credentialsError message) w.remote
      rfl).trans
    (errorHandler_refresh_failed { id := id, email := email, refresh := .rejected refreshError }
      retry (credentialsError message) Deferred.pending (w.sent w.remote) refreshError rfl rfl)
  rw [h]
  simp [World.sent]

/-- C3: when the `error` handler of a request fires with an error `e` whose
code is not `CredentialsError`, the promise `sendDbRequest` returns is rejected
with `e`, neither `retry()` nor `identity.refresh()` is invoked, and the calls
made on the request are the two registrations followed by one `send()`. -/
theorem sendDbRequest_other_error_rejects (identity : Option Identity) (req : Request)
    (retry : World → DbPromise × World) (w : World) (e : JSError) (remote : Remote)
    (hrun : req.run w.remote = (Completion.error e, remote))
    (hcode : e.code ≠ "CredentialsError".toList) :
    (sendDbRequest identity req retry w).1 = Deferred.rejected (Rejection.error e) ∧
      (sendDbRequest identity req retry w).2.retryCalls = w.retryCalls ∧
      (sendDbRequest identity req retry w).2.refreshCalls = w.refreshCalls ∧
      (sendDbRequest identity req retry w).2.reqCalls =
        w.reqCalls ++ [ReqCall.on "error".toList, ReqCall.on "success".toList, ReqCall.send] := by
  rw [sendDbRequest_of_error identity req retry w e remote hrun,
    errorHandler_other identity retry e Deferred.pending (w.sent remote) hcode]
  exact ⟨rfl, rfl, rfl, rfl⟩

/-- C3 at a concrete request: a put refused with a `ValidationException`. -/
theorem sendDbRequest_other_error_rejects_witness :
    (sendDbRequest (some sampleIdentity)
        (dbPut (saveParams sampleIdentity (.int 1) "true".toList))
        (fun w1 => (Deferred.pending, w1))
        (World.start Store.empty
          [.fail { code := "ValidationException".toList, message := [] }])).1
      = Deferred.rejected
          (Rejection.error { code := "ValidationException".toList, message := [] }) :=
  (sendDbRequest_other_error_rejects (some sampleIdentity)
    (dbPut (saveParams sampleIdentity (.int 1) "true".toList))
    (fun w1 => (Deferred.pending, w1))
    (World.start Store.empty [.fail { code := "ValidationException".toList, message := [] }])
    { code := "ValidationException".toList, message := [] }
    { store := Store.empty, net := [] } rfl (by decide)).1

/-- When the `success` handler of a request fires, the promise `sendDbRequest`
returns is resolved with the data of the response, neither `retry()` nor
`identity.refresh()` is invoked, and `send()` was called once, after the two
registrations. -/
theorem sendDbRequest_success_resolves (identity : Option Identity) (req : Request)
    (retry : World → DbPromise × World) (w : World) (data : DbData) (remote : Remote)
    (hrun : req.run w.remote = (Completion.success data, remote)) :
    (sendDbRequest identity req retry w).1 = Deferred.resolved data ∧
      (sendDbRequest identity req retry w).2.retryCalls = w.retryCalls ∧
      (sendDbRequest identity req retry w).2.refreshCalls = w.refreshCalls ∧
      (sendDbRequest identity req retry w).2.reqCalls =
        w.reqCalls ++ [ReqCall.on "error".toList, ReqCall.on "success".toList, ReqCall.send] := by
  rw [sendDbRequest_of_success identity req retry w data remote hrun]
  exact ⟨rfl, rfl, rfl, rfl⟩

/-- A get on the empty store resolves with the empty object. -/
theorem sendDbRequest_success_resolves_witness :
    (sendDbRequest (some sampleIdentity) (dbGet (fetchParams sampleIdentity (.int 1)))
        (fun w1 => (Deferred.pending, w1)) (World.start Store.empty [.ok])).1
      = Deferred.resolved DbData.empty :=
  (sendDbRequest_success_resolves (some sampleIdentity)
    (dbGet (fetchParams sampleIdentity (.int 1))) (fun w1 => (Deferred.pending, w1))
    (World.start Store.empty [.ok]) DbData.empty { store := Store.empty, net := [] } rfl).1

/-- A save the service refuses with an error that is no `CredentialsError` is
rejected with that error, without a retry and without a refresh, and the store
is left as it was. -/
theorem saveAnswer_other_error_rejects (depth : Nat) (i : Identity) (problemId : JSNum)
    (answer : JSString) (w : World) (e : JSError) (rest : List NetOutcome)
    (hnet : w.remote.net = NetOutcome.fail e :: rest)
    (hcode : e.code ≠ "CredentialsError".toList) :
    (saveAnswer depth (some i) problemId answer w).1 = Deferred.rejected (Rejection.error e) ∧
      (saveAnswer depth (some i) problemId answer w).2.retryCalls = w.retryCalls ∧
      (saveAnswer depth (some i) problemId answer w).2.refreshCalls = w.refreshCalls ∧
      (saveAnswer depth (some i) problemId answer w).2.remote.store = w.remote.store := by
  have hrun : (dbPut (saveParams i problemId answer)).run w.remote
      = (Completion.error e, { w.remote with net := rest }) := by
    simp [dbPut, hnet]
  unfold saveAnswer
  rw [sendDbRequest_of_error _ _ _ w e _ hrun, errorHandler_other _ _ e _ _ hcode]
  exact ⟨rfl, rfl, rfl, rfl⟩

/-- A save refused with a `ValidationException`. -/
theorem saveAnswer_other_error_rejects_witness :
    (saveAnswer 3 (some sampleIdentity) (.int 1) "true".toList
        (World.start Store.empty
          [.fail { code := "ValidationException".toList, message := [] }])).1
      = Deferred.rejected
          (Rejection.error { code := "ValidationException".toList, message := [] }) :=
  (saveAnswer_other_error_rejects 3 sampleIdentity (.int 1) "true".toList
    (World.start Store.empty [.fail { code := "ValidationException".toList, message := [] }])
    { code := "ValidationException".toList, message := [] } [] rfl (by decide)).1

/-! ## The answer store -/

/-- A save the service carries out resolves with the empty object and writes the item. -/
theorem saveAnswer_ok (depth : Nat) (i : Identity) (problemId : JSNum) (answer : JSString)
    (w : World) (rest : List NetOutcome) (hnet : w.remote.net = NetOutcome.ok :: rest) :
    saveAnswer depth (some i) problemId answer w
      = (Deferred.resolved DbData.empty,
          w.sent { store := w.remote.store.put "learnjs".toList
                      { userId := i.id, problemId := problemId, answer := answer },
                   net := rest }) := by
  unfold saveAnswer
  exact sendDbRequest_of_success _ _ _ w _ _ (by simp [dbPut, hnet, saveParams])

/-- A fetch the service carries out resolves with what the store holds under the key. -/
theorem fetchAnswer_ok (depth : Nat) (i : Identity) (problemId : JSNum)
    (w : World) (rest : List NetOutcome) (hnet : w.remote.net = NetOutcome.ok :: rest) :
    fetchAnswer depth (some i) problemId w
      = (Deferred.resolved
            (w.remote.store.get "learnjs".toList { userId := i.id, problemId := problemId }),
          w.sent { w.remote with net := rest }) := by
  unfold fetchAnswer
  exact sendDbRequest_of_success _ _ _ w _ _ (by simp [dbGet, hnet, fetchParams])

/-- Reading the key just written gives the item written. -/
theorem Store.get_put (s : Store) (table : JSString) (item : AnswerItem) :
    (s.put table item).get table item.key = DbData.item item := by
  simp [Store.get, Store.put]

/-- C8: over the store as a map keyed by `(userId, problemId)`, the `Key` that
`fetchAnswer(problemId)` builds is the `(userId, problemId)` of the `Item` that
`saveAnswer(problemId, a)` builds, in the same table `learnjs`, with `userId`
the id of the identity; so a save the service carries out followed by a fetch
it carries out, for the same identity and problem, resolves with the item
whose `answer` is `a`, and after a second save for the same key the fetch
resolves with the answer of the second. -/
theorem saveAnswer_fetchAnswer_roundtrip (depth : Nat) (i : Identity) (problemId : JSNum)
    (a b : JSString) (store : Store) (rest : List NetOutcome) :
    (fetchParams i problemId).Key = (saveParams i problemId a).Item.key ∧
      (fetchParams i problemId).TableName = (saveParams i problemId a).TableName ∧
      (saveParams i problemId a).TableName = "learnjs".toList ∧
      (saveParams i problemId a).Item.userId = i.id ∧
      (saveAnswer depth (some i) problemId a (World.start store (.ok :: .ok :: rest))).1
        = Deferred.resolved DbData.empty ∧
      (fetchAnswer depth (some i) problemId
          (saveAnswer depth (some i) problemId a (World.start store (.ok :: .ok :: rest))).2).1
        = Deferred.resolved
            (DbData.item { userId := i.id, problemId := problemId, answer := a }) ∧
      (fetchAnswer depth (some i) problemId
          (saveAnswer depth (some i) problemId b
            (saveAnswer depth (some i) problemId a
              (World.start store (.ok :: .ok :: .ok :: rest))).2).2).1
        = Deferred.resolved
            (DbData.item { userId := i.id, problemId := problemId, answer := b }) := by
  refine ⟨rfl, rfl, rfl, rfl, ?_, ?_, ?_⟩
  · rw [saveAnswer_ok depth i problemId a _ (.ok :: rest) rfl]
  · rw [saveAnswer_ok depth i problemId a _ (.ok :: rest) rfl,
      fetchAnswer_ok depth i problemId _ rest rfl]
    exact congrArg Deferred.resolved (Store.get_put _ _ _)
  · rw [saveAnswer_ok depth i problemId a _ (.ok :: .ok :: rest) rfl,
      saveAnswer_ok depth i problemId b _ (.ok :: rest) rfl,
      fetchAnswer_ok depth i problemId _ rest rfl]
    exact congrArg Deferred.resolved (Store.get_put _ _ _)

/-! ## The answer checker: the source sent to the worker -/

/-- A string starts what it is a part of. -/
theorem startsWith_append (n post : JSString) : startsWith n (n ++ post) = true := by
  induction n with
  | nil => rfl
  | cons c cs ih => simp [startsWith, ih]

/-- Counting the occurrences in a string with a first character. -/
theorem occurrences_cons (n : JSString) (c : Char) (cs : JSString) :
    occurrences n (c :: cs)
      = (if startsWith n (c :: cs) then 1 else 0) + occurrences n cs := rfl

/-- The needle occurs in a string built around it. -/
theorem occurrences_pos (n pre post : JSString) (hn : n ≠ []) :
    1 ≤ occurrences n (pre ++ (n ++ post)) := by
  induction pre with
  | nil =>
    cases n with
    | nil => exact absurd rfl hn
    | cons c cs =>
      have h := startsWith_append (c :: cs) post
      rw [List.nil_append]
      rw [List.cons_append] at h ⊢
      rw [occurrences_cons, h]
      simp
  | cons c pre ih =>
    rw [List.cons_append, occurrences_cons]
    omega

/-- The needle that occurs once is found where it stands. -/
theorem findFirst_of_unique (n pre post : JSString) (hn : n ≠ [])
    (h1 : occurrences n (pre ++ (n ++ post)) = 1) :
    findFirst n (pre ++ (n ++ post)) = some (pre, post) := by
  induction pre with
  | nil =>
    cases n with
    | nil => exact absurd rfl hn
    | cons c cs =>
      have h := startsWith_append (c :: cs) post
      rw [List.nil_append]
      rw [List.cons_append] at h ⊢
      simp [findFirst, h]
  | cons c pre ih =>
    have hpos := occurrences_pos n pre post hn
    rw [List.cons_append, occurrences_cons] at h1
    have hstart : startsWith n (c :: (pre ++ (n ++ post))) = false := by
      cases hs : startsWith n (c :: (pre ++ (n ++ post)))
      · rfl
      · rw [hs] at h1; simp at h1; omega
    have hrest : occurrences n (pre ++ (n ++ post)) = 1 := by
      rw [hstart] at h1; simpa using h1
    rw [List.cons_append]
    simp [findFirst, hstart, ih hrest]

/-- A replacement text without a dollar sign is inserted as it is. -/
theorem getSubstitution_of_no_dollar (matched before after a : JSString)
    (ha : dollar ∉ a) : getSubstitution matched before after a = a := by
  induction a with
  | nil => rfl
  | cons c t ih =>
    cases t with
    | nil => rfl
    | cons d rest =>
      have hc : c ≠ dollar := fun h => ha (by simp [h])
      have ht : dollar ∉ d :: rest := fun h => ha (List.mem_cons_of_mem _ h)
      simp only [getSubstitution, if_neg hc, ih ht]

/-- C4 (the code at the failing case): for problem 1, whose template holds the
placeholder exactly once, and the answer `$&`, the source `checkAnswer` sends
to the worker is not the template with the answer in place of the placeholder:
the replacement pattern `$&` is expanded to the placeholder itself. -/
theorem checkAnswerTest_expands_dollar_patterns :
    occurrences "__".toList "function problem() \x7b return __; \x7d".toList = 1 ∧
      checkAnswer (some { description := "What is truth?".toList,
                          code := "function problem() \x7b return ".toList ++ "__".toList
                                    ++ "; \x7d".toList }) "$&".toList []
        = some ("function problem() \x7b return __; \x7d; problem();".toList, Deferred.pending) ∧
      checkAnswerTest { description := "What is truth?".toList,
                        code := "function problem() \x7b return ".toList ++ "__".toList
                                  ++ "; \x7d".toList } "$&".toList
        ≠ "function problem() \x7b return ".toList ++ "$&".toList ++ "; \x7d".toList
            ++ "; problem();".toList := by
  decide

/-- The source sent to the worker when the answer holds no dollar sign: for a
template `pre ++ "__" ++ post` with the placeholder exactly once, it is
`pre ++ a ++ post ++ "; problem();"`. -/
theorem checkAnswerTest_verbatim_without_dollar (description pre post a : JSString)
    (honce : occurrences "__".toList (pre ++ "__".toList ++ post) = 1)
    (ha : dollar ∉ a) :
    checkAnswerTest { description := description, code := pre ++ "__".toList ++ post } a
      = pre ++ a ++ post ++ "; problem();".toList := by
  have hfind := findFirst_of_unique "__".toList pre post (by decide)
    (by rw [← List.append_assoc]; exact honce)
  simp only [checkAnswerTest, replace, List.append_assoc, hfind,
    getSubstitution_of_no_dollar _ _ _ a ha]

/-- The source for problem 1 and the answer `true`. -/
theorem checkAnswerTest_verbatim_without_dollar_witness :
    checkAnswerTest { description := "What is truth?".toList,
                      code := "function problem() \x7b return ".toList ++ "__".toList
                                ++ "; \x7d".toList } "true".toList
      = "function problem() \x7b return ".toList ++ "true".toList ++ "; \x7d".toList
          ++ "; problem();".toList :=
  checkAnswerTest_verbatim_without_dollar "What is truth?".toList
    "function problem() \x7b return ".toList "; \x7d".toList "true".toList
    (by decide) (by decide)

/-! ## Decimal numbers in the hash -/

/-- The digit characters are decimal digits with the right value. -/
theorem digitChar_spec (d : Nat) (hd : d < 10) :
    isDecimalDigit (digitChar d) = true ∧ (digitChar d).toNat - 48 = d := by
  interval_cases d <;> decide

/-- The value of a digit string with one more digit. -/
theorem digitsValue_append (ds : JSString) (c : Char) :
    digitsValue (ds ++ [c]) = 10 * digitsValue ds + (c.toNat - 48) := by
  simp [digitsValue, List.foldl_append]

/-- With enough fuel, the rendering of `n` is a non-empty string of digits of value `n`. -/
theorem decimalFuel_spec (fuel n : Nat) (h : n < fuel) :
    (∀ c ∈ decimalFuel fuel n, isDecimalDigit c = true) ∧
      digitsValue (decimalFuel fuel n) = n ∧ decimalFuel fuel n ≠ [] := by
  induction fuel generalizing n with
  | zero => omega
  | succ fuel ih =>
    unfold decimalFuel
    by_cases hn : n < 10
    · rw [if_pos hn]
      have hd := digitChar_spec n hn
      refine ⟨?_, ?_, by simp⟩
      · intro c hc
        rw [List.mem_singleton] at hc
        rw [hc]; exact hd.1
      · simp [digitsValue, hd.2]
    · rw [if_neg hn]
      have hlt : n / 10 < fuel := by omega
      obtain ⟨hall, hval, _⟩ := ih (n / 10) hlt
      have hd := digitChar_spec (n % 10) (by omega)
      refine ⟨?_, ?_, by simp⟩
      · intro c hc
        rw [List.mem_append, List.mem_singleton] at hc
        rcases hc with hc | hc
        · exact hall c hc
        · rw [hc]; exact hd.1
      · rw [digitsValue_append, hval, hd.2]; omega

/-- The rendering of `n` is a non-empty string of digits of value `n`. -/
theorem decimal_spec (n : Nat) :
    (∀ c ∈ decimal n, isDecimalDigit c = true) ∧ digitsValue (decimal n) = n ∧ decimal n ≠ [] :=
  decimalFuel_spec (n + 1) n (Nat.lt_succ_self n)

/-- A decimal digit is neither white space nor a sign nor the separator of the hash. -/
theorem isDecimalDigit_facts (c : Char) (hc : isDecimalDigit c = true) :
    isStrWhiteSpace c = false ∧ c ≠ '-' ∧ c ≠ '+' := by
  simp only [isDecimalDigit, Bool.and_eq_true, decide_eq_true_eq] at hc
  refine ⟨?_, ?_, ?_⟩
  · simp only [isStrWhiteSpace, Bool.or_eq_false_iff, Bool.and_eq_false_iff,
      decide_eq_false_iff_not]
    omega
  · intro h; rw [h] at hc; revert hc; decide
  · intro h; rw [h] at hc; revert hc; decide

/-- No sign is read in front of a character that is none. -/
theorem readSign_of_no_sign (c : Char) (t : JSString) (hminus : c ≠ '-') (hplus : c ≠ '+') :
    readSign (c :: t) = (false, c :: t) := by
  unfold readSign
  split
  · rename_i h; simp at h; exact absurd h.1 hminus
  · rename_i h; simp at h; exact absurd h.1 hplus
  · rfl

/-- The call `parseInt` reads a non-empty string of digits as its value. -/
theorem parseIntString_digits (s : JSString) (hs : s ≠ [])
    (hall : ∀ c ∈ s, isDecimalDigit c = true) :
    parseIntString s = JSNum.int (digitsValue s) := by
  cases s with
  | nil => exact absurd rfl hs
  | cons c t =>
    have hc := hall c (List.mem_cons_self c t)
    obtain ⟨hws, hminus, hplus⟩ := isDecimalDigit_facts c hc
    have htake : (c :: t).takeWhile isDecimalDigit = c :: t :=
      List.takeWhile_eq_self_iff.mpr hall
    have hdrop : (c :: t).dropWhile isStrWhiteSpace = c :: t := by
      simp [List.dropWhile, hws]
    simp [parseIntString, hdrop, readSign_of_no_sign c t hminus hplus, htake]

/-- Parsing the rendering of a natural number gives the number back. -/
theorem parseInt_decimal (n : Nat) : parseInt (some (decimal n)) = JSNum.int (n : Int) := by
  obtain ⟨hall, hval, hne⟩ := decimal_spec n
  simp only [parseInt]
  rw [parseIntString_digits (decimal n) hne hall, hval]

/-! ## The router -/

/-- A string without the separator is one piece. -/
theorem split_of_not_mem (sep : Char) (s : JSString) (h : sep ∉ s) : split sep s = [s] := by
  induction s with
  | nil => rfl
  | cons c cs ih =>
    have hc : c ≠ sep := fun e => h (by simp [e])
    have hcs : sep ∉ cs := fun e => h (List.mem_cons_of_mem _ e)
    simp [split, hc, ih hcs]

/-- The first piece ends at the first separator. -/
theorem split_append_sep (sep : Char) (a b : JSString) (h : sep ∉ a) :
    split sep (a ++ sep :: b) = a :: split sep b := by
  induction a with
  | nil => simp [split]
  | cons c a ih =>
    have hc : c ≠ sep := fun e => h (by simp [e])
    have ha : sep ∉ a := fun e => h (List.mem_cons_of_mem _ e)
    simp [split, hc, ih ha]

/-- The rendering of a natural number holds no hyphen. -/
theorem hyphen_not_mem_decimal (n : Nat) : '-' ∉ decimal n := fun h =>
  (isDecimalDigit_facts _ ((decimal_spec n).1 _ h)).2.1 rfl

/-- The parts of a hash `#problem-N`. -/
theorem split_problem_hash (n : Nat) :
    split '-' ("#problem-".toList ++ decimal n) = ["#problem".toList, decimal n] := by
  have h := split_append_sep '-' "#problem".toList (decimal n) (by decide)
  rw [split_of_not_mem '-' (decimal n) (hyphen_not_mem_decimal n)] at h
  exact h

/-- The page `showView` leaves when the first part of the hash has a route. -/
theorem showView_of_route (ps : List Problem) (identity : Option Identity)
    (hash : JSString) (page : Page) (viewFn : ViewFn)
    (hr : routes ((split '-' hash).headD []) = some viewFn) :
    showView ps identity hash page
      = (page.unmounted viewFn).mounted ps identity (split '-' hash)[1]? viewFn := by
  unfold showView
  simp only [hr]
  cases viewFn <;> rfl

/-- The page `showView` leaves when the first part of the hash has no route. -/
theorem showView_of_no_route (ps : List Problem) (identity : Option Identity)
    (hash : JSString) (page : Page) (hr : routes ((split '-' hash).headD []) = none) :
    showView ps identity hash page = page := by
  unfold showView
  simp only [hr]

/-- The keys of `routes` that hold a value. -/
theorem routes_eq_none (key : JSString) (hk : key ∉ knownRoutes)
    (hp : key ∉ objectPrototypeNames) : routes key = none := by
  have h1 : key ≠ "#problem".toList := fun e => hk (by rw [e]; decide)
  have h2 : key ≠ "#profile".toList := fun e => hk (by rw [e]; decide)
  have h3 : key ≠ "#".toList := fun e => hk (by rw [e]; decide)
  have h4 : key ≠ [] := fun e => hk (by rw [e]; decide)
  unfold routes
  rw [if_neg h1, if_neg h2, if_neg h3, if_neg h4, if_neg hp]

/-- A known route has one of the three view functions. -/
theorem routes_of_known (key : JSString) (hk : key ∈ knownRoutes) :
    (key = "#problem".toList ∧ routes key = some .problemView) ∨
      (key = "#profile".toList ∧ routes key = some .profileView) ∨
      (routes key = some .landingView) := by
  simp only [knownRoutes, List.mem_cons, List.mem_singleton, List.not_mem_nil, or_false] at hk
  rcases hk with h | h | h | h
  · exact Or.inl ⟨h, by rw [h]; rfl⟩
  · exact Or.inr (Or.inl ⟨h, by rw [h]; rfl⟩)
  · exact Or.inr (Or.inr (by rw [h]; rfl))
  · exact Or.inr (Or.inr (by rw [h]; rfl))

/-- The problem view for the rendering of a natural number. -/
theorem problemView_decimal (ps : List Problem) (n : Nat) (page : Page) :
    problemView ps (some (decimal n)) page
      = if n < ps.length then
          (View.problem ("Problem #".toList ++ decimal n) (applyObject (index ps (.int (n - 1))))
              (.int n) (index ps (.int (n - 1))) (some page.nextNode),
            { page with
              navList := page.navList ++
                [NavItem.skipBtn page.nextNode ("#problem-".toList ++ decimal (n + 1))]
              nextNode := page.nextNode + 1 })
        else
          (View.problem ("Problem #".toList ++ decimal n) (applyObject (index ps (.int (n - 1))))
              (.int n) (index ps (.int (n - 1))) none, page) := by
  have hlt : (JSNum.int (n : Int)).lt (.int ps.length) = decide (n < ps.length) := by
    simp [JSNum.lt]
  have hadd : ((JSNum.int (n : Int)).add (.int 1)).toJSString = decimal (n + 1) := rfl
  have hstr : (JSNum.int (n : Int)).toJSString = decimal n := rfl
  unfold problemView
  simp only [parseInt_decimal, hlt, hadd, hstr, JSNum.sub, decide_eq_true_eq]

/-- The entry of the problem list a valid problem number selects. -/
theorem index_pred (ps : List Problem) (n : Nat) (h1 : 1 ≤ n) :
    index ps (.int ((n : Int) - 1)) = ps[n - 1]? := by
  have h : ((n : Int) - 1) = Int.ofNat (n - 1) := by
    simp only [Int.ofNat_eq_coe]; omega
  rw [h]; rfl

/-- The page after `showView` on the hash `#problem-N`. -/
theorem showView_problem_hash (ps : List Problem) (identity : Option Identity) (n : Nat)
    (page : Page) :
    showView ps identity ("#problem-".toList ++ decimal n) page
      = (problemView ps (some (decimal n)) (page.unmounted .problemView)).2.append
          (problemView ps (some (decimal n)) (page.unmounted .problemView)).1 := by
  have hr : routes ((split '-' ("#problem-".toList ++ decimal n)).headD [])
      = some ViewFn.problemView := by
    rw [split_problem_hash]; rfl
  rw [showView_of_route ps identity _ page .problemView hr, split_problem_hash]
  rfl

/-- The view mounted by `showView` on the hash `#problem-N` for a valid `N`. -/
theorem showView_problem_hash_container (ps : List Problem) (identity : Option Identity)
    (n : Nat) (page : Page) (p : Problem) (h1 : 1 ≤ n) (hp : ps[n - 1]? = some p) :
    (showView ps identity ("#problem-".toList ++ decimal n) page).container
      = [View.problem ("Problem #".toList ++ decimal n)
          [("description".toList, p.description), ("code".toList, p.code)] (.int n) (some p)
          (if n < ps.length then some page.nextNode else none)] := by
  rw [showView_problem_hash, problemView_decimal, index_pred ps n h1, hp]
  by_cases hlt : n < ps.length
  · simp only [if_pos hlt]; rfl
  · simp only [if_neg hlt]; rfl

/-- The first part of a hash that starts with `#` starts with `#`. -/
theorem split_head_of_hash (rest : JSString) :
    ∃ t, (split '-' ('#' :: rest)).headD [] = '#' :: t := by
  unfold split
  rw [if_neg (by decide)]
  cases split '-' rest with
  | nil => exact ⟨[], rfl⟩
  | cons q qs => exact ⟨q, rfl⟩

/-- No member inherited from `Object.prototype` has a name that starts with `#`. -/
theorem hash_not_mem_objectPrototypeNames (t : JSString) :
    '#' :: t ∉ objectPrototypeNames := by
  simp [objectPrototypeNames]

/-- C6: for every fragment string the router receives, the hash of the
location, which is empty or starts with `#`, whose part before the first hyphen
is none of the known routes `#problem`, `#profile`, `#` and the empty string,
`showView` leaves the page as it is: the mounted view stays, no `removingView`
is broadcast, the container is not emptied and no view function is called. -/
theorem showView_unmatched_unchanged (ps : List Problem) (identity : Option Identity)
    (hash : JSString) (page : Page)
    (hloc : hash = [] ∨ ∃ rest, hash = '#' :: rest)
    (hk : (split '-' hash).headD [] ∉ knownRoutes) :
    showView ps identity hash page = page ∧
      (showView ps identity hash page).effects = page.effects ∧
      (showView ps identity hash page).container = page.container ∧
      (showView ps identity hash page).navList = page.navList := by
  have hp : (split '-' hash).headD [] ∉ objectPrototypeNames := by
    rcases hloc with h | ⟨rest, h⟩
    · rw [h]; decide
    · obtain ⟨t, ht⟩ := split_head_of_hash rest
      rw [h, ht]
      exact hash_not_mem_objectPrototypeNames t
  have h := showView_of_no_route ps identity hash page (routes_eq_none _ hk hp)
  exact ⟨h, by rw [h], by rw [h], by rw [h]⟩

/-- C6 at the hashes `#settings-3` and `#toString`, with problem 1 and its skip
button mounted. -/
theorem showView_unmatched_unchanged_witness :
    showView problems none "#settings-3".toList
          (showView problems none "#problem-1".toList (Page.initial []))
        = showView problems none "#problem-1".toList (Page.initial []) ∧
      showView problems none "#toString".toList
          (showView problems none "#problem-1".toList (Page.initial []))
        = showView problems none "#problem-1".toList (Page.initial []) :=
  ⟨(showView_unmatched_unchanged problems none "#settings-3".toList
      (showView problems none "#problem-1".toList (Page.initial []))
      (Or.inr ⟨"settings-3".toList, rfl⟩) (by decide)).1,
    (showView_unmatched_unchanged problems none "#toString".toList
      (showView problems none "#problem-1".toList (Page.initial []))
      (Or.inr ⟨"toString".toList, rfl⟩) (by decide)).1⟩

/-- C7: for every `N` with `1 ≤ N ≤` the number of problems, the hash
`#problem-N` splits into `#problem` and the rendering of `N`, `parseInt` reads
`N` back, the index `N - 1` is within the list, and `showView` on that hash
leaves exactly one mounted view: a problem view whose title is `Problem #N` and
whose problem data is the `N`-th entry of the list. -/
theorem showView_mounts_problem (ps : List Problem) (identity : Option Identity)
    (page : Page) (n : Nat) (h1 : 1 ≤ n) (h2 : n ≤ ps.length) :
    split '-' ("#problem-".toList ++ decimal n) = ["#problem".toList, decimal n] ∧
      parseInt (some (decimal n)) = JSNum.int n ∧
      n - 1 < ps.length ∧
      ∃ p, ps[n - 1]? = some p ∧
        (showView ps identity ("#problem-".toList ++ decimal n) page).container
          = [View.problem ("Problem #".toList ++ decimal n)
              [("description".toList, p.description), ("code".toList, p.code)] (.int n)
              (some p) (if n < ps.length then some page.nextNode else none)] := by
  have hlt : n - 1 < ps.length := by omega
  refine ⟨split_problem_hash n, parseInt_decimal n, hlt, ps[n - 1], ?_, ?_⟩
  · exact List.getElem?_eq_getElem hlt
  · exact showView_problem_hash_container ps identity n page _ h1
      (List.getElem?_eq_getElem hlt)

/-- C7 at the second problem of the application. -/
theorem showView_mounts_problem_witness :
    ∃ p, problems[2 - 1]? = some p ∧
      (showView problems none ("#problem-".toList ++ decimal 2) (Page.initial [])).container
        = [View.problem ("Problem #".toList ++ decimal 2)
            [("description".toList, p.description), ("code".toList, p.code)] (.int (2 : Nat))
            (some p) (if 2 < problems.length then some (Page.initial []).nextNode else none)] :=
  (showView_mounts_problem problems none (Page.initial []) 2 (by decide) (by decide)).2.2.2

/-- No piece of a split string holds the separator. -/
theorem split_pieces (sep : Char) (s : JSString) : ∀ piece ∈ split sep s, sep ∉ piece := by
  induction s with
  | nil =>
    intro piece hp
    simp only [split, List.mem_singleton] at hp
    rw [hp]; exact List.not_mem_nil sep
  | cons c cs ih =>
    intro piece hp
    unfold split at hp
    by_cases hc : c = sep
    · rw [if_pos hc] at hp
      rcases List.mem_cons.mp hp with h | h
      · rw [h]; exact List.not_mem_nil sep
      · exact ih piece h
    · rw [if_neg hc] at hp
      cases hs : split sep cs with
      | nil =>
        rw [hs] at hp
        simp only [List.mem_singleton] at hp
        rw [hp]
        intro hmem
        simp only [List.mem_singleton] at hmem
        exact hc hmem.symm
      | cons q qs =>
        rw [hs] at hp ih
        rcases List.mem_cons.mp hp with h | h
        · rw [h]
          intro hmem
          rcases List.mem_cons.mp hmem with h2 | h2
          · exact hc h2.symm
          · exact ih q (List.mem_cons_self q qs) h2
        · exact ih piece (List.mem_cons_of_mem q h)

/-- No minus sign is read from a string without a hyphen. -/
theorem readSign_of_no_hyphen (s : JSString) (h : '-' ∉ s) : (readSign s).1 = false := by
  unfold readSign
  split
  · rename_i r
    exact absurd (List.mem_cons_self '-' r) h
  · rfl
  · rfl

/-- The second part of a hash is never read as a negative number. -/
theorem parseInt_of_no_hyphen (arg : Option JSString) (h : ∀ s, arg = some s → '-' ∉ s) :
    parseInt arg = JSNum.nan ∨ ∃ k : Nat, parseInt arg = JSNum.int (k : Int) := by
  cases arg with
  | none => left; decide
  | some s =>
    have hs : '-' ∉ s.dropWhile isStrWhiteSpace := fun hm =>
      h s rfl ((List.dropWhile_sublist isStrWhiteSpace).subset hm)
    have hsign := readSign_of_no_hyphen _ hs
    simp only [parseInt, parseIntString, hsign]
    by_cases he :
        (List.takeWhile isDecimalDigit (readSign (s.dropWhile isStrWhiteSpace)).2).isEmpty = true
    · left; simp [he]
    · right
      exact ⟨digitsValue (List.takeWhile isDecimalDigit
        (readSign (s.dropWhile isStrWhiteSpace)).2), by simp [he]⟩

/-- C10: for every `N` with `1 ≤ N <` the number of problems, the skip button
`problemView(N)` injects and the link of `buildCorrectFlash(N)` both have the
`href` `#problem-` followed by the rendering of `N + 1`; `showView` on that
`href` mounts the problem view with problem number `N + 1`, whose problem data
is the entry `N + 1` of the list, and `2 ≤ N + 1 ≤` the number of problems. For
`N` equal to the number of problems, `problemView(N)` injects no skip button
and `buildCorrectFlash(N)` gives the link the empty `href` and the text
`You are Finished!`. Hence, whatever the hash, when the problem number read
from its second part makes `problemView` or `buildCorrectFlash` build a
next-problem link, the link is `#problem-K` with `1 ≤ K ≤` the number of
problems. -/
theorem next_problem_links_stay_in_range (ps : List Problem) (identity : Option Identity)
    (page page2 : Page) (n : Nat) :
    (1 ≤ n → n < ps.length →
      (problemView ps (some (decimal n)) page).2.navList
          = page.navList ++
              [NavItem.skipBtn page.nextNode ("#problem-".toList ++ decimal (n + 1))] ∧
        (buildCorrectFlash ps (.int n)).href = "#problem-".toList ++ decimal (n + 1) ∧
        2 ≤ n + 1 ∧ n + 1 ≤ ps.length ∧
        ∃ p, ps[n]? = some p ∧
          (showView ps identity ("#problem-".toList ++ decimal (n + 1)) page2).container
            = [View.problem ("Problem #".toList ++ decimal (n + 1))
                [("description".toList, p.description), ("code".toList, p.code)]
                (.int ((n + 1 : Nat) : Int)) (some p)
                (if n + 1 < ps.length then some page2.nextNode else none)]) ∧
      (n = ps.length →
        (problemView ps (some (decimal n)) page).2 = page ∧
          (problemView ps (some (decimal n)) page).1.buttonItem = none ∧
          buildCorrectFlash ps (.int n)
            = { href := [], text := some "You are Finished!".toList }) ∧
      (∀ hash : JSString,
        (parseInt (split '-' hash)[1]?).lt (.int ps.length) = true →
          ∃ k : Nat, 1 ≤ k ∧ k ≤ ps.length ∧
            (buildCorrectFlash ps (parseInt (split '-' hash)[1]?)).href
              = "#problem-".toList ++ decimal k ∧
            (problemView ps (split '-' hash)[1]? page).2.navList
              = page.navList ++
                  [NavItem.skipBtn page.nextNode ("#problem-".toList ++ decimal k)]) := by
  have hflash : (JSNum.int (n : Int)).lt (.int ps.length) = decide (n < ps.length) := by
    simp [JSNum.lt]
  refine ⟨?_, ?_, ?_⟩
  · intro h1 hlt
    refine ⟨?_, ?_, by omega, by omega, ps[n], List.getElem?_eq_getElem hlt, ?_⟩
    · rw [problemView_decimal, if_pos hlt]
    · simp only [buildCorrectFlash, hflash, decide_eq_true_eq, if_pos hlt]
      rfl
    · exact showView_problem_hash_container ps identity (n + 1) page2 _ (by omega)
        (List.getElem?_eq_getElem hlt)
  · intro heq
    have hnlt : ¬ n < ps.length := by omega
    refine ⟨?_, ?_, ?_⟩
    · rw [problemView_decimal, if_neg hnlt]
    · rw [problemView_decimal, if_neg hnlt]; rfl
    · simp only [buildCorrectFlash, hflash, decide_eq_true_eq, if_neg hnlt]
  · intro hash hlt
    have hno : ∀ s, (split '-' hash)[1]? = some s → '-' ∉ s := fun s hs =>
      split_pieces '-' hash s (List.getElem?_mem hs)
    rcases parseInt_of_no_hyphen _ hno with hnan | ⟨k, hk⟩
    · rw [hnan] at hlt; simp [JSNum.lt] at hlt
    · have hklt : k < ps.length := by
        rw [hk] at hlt; simpa [JSNum.lt] using hlt
      have hadd : ((JSNum.int (k : Int)).add (.int 1)).toJSString = decimal (k + 1) := rfl
      refine ⟨k + 1, by omega, by omega, ?_, ?_⟩
      · simp only [buildCorrectFlash, hlt, if_true]
        rw [hk, hadd]
      · unfold problemView
        simp only [hlt, if_true]
        rw [hk, hadd]

/-- C10 at the application's list: the links built for problem 1 lead to
problem 2, and problem 2 is the last. -/
theorem next_problem_links_stay_in_range_witness :
    (buildCorrectFlash problems (.int (1 : Nat))).href = "#problem-".toList ++ decimal (1 + 1) ∧
      buildCorrectFlash problems (.int (2 : Nat))
        = { href := [], text := some "You are Finished!".toList } :=
  ⟨((next_problem_links_stay_in_range problems none (Page.initial []) (Page.initial []) 1).1
      (by decide) (by decide)).2.1,
    ((next_problem_links_stay_in_range problems none (Page.initial []) (Page.initial []) 2).2.1
      (by decide)).2.2⟩

/-! ## The skip button -/

/-- Removing a node removes it from the skip buttons. -/
theorem skipNodes_removeNode (b : Nat) (nav : List NavItem) :
    skipNodes (removeNode b nav) = (skipNodes nav).filter (fun x => x != b) := by
  induction nav with
  | nil => rfl
  | cons item nav ih =>
    cases item with
    | static label =>
      have h : removeNode b (NavItem.static label :: nav)
          = NavItem.static label :: removeNode b nav := by
        simp [removeNode, NavItem.skipNode]
      rw [h]
      simpa [skipNodes, NavItem.skipNode] using ih
    | skipBtn node href =>
      by_cases hb : node = b
      · have h : removeNode b (NavItem.skipBtn node href :: nav) = removeNode b nav := by
          simp [removeNode, NavItem.skipNode, hb]
        rw [h, ih]
        simp [skipNodes, NavItem.skipNode, hb]
      · have h : removeNode b (NavItem.skipBtn node href :: nav)
            = NavItem.skipBtn node href :: removeNode b nav := by
          simp [removeNode, NavItem.skipNode, hb]
        rw [h]
        have ih2 : List.filterMap NavItem.skipNode (removeNode b nav)
            = List.filter (fun x => x != b) (List.filterMap NavItem.skipNode nav) := ih
        simp [skipNodes, NavItem.skipNode, hb, ih2]

/-- The skip buttons of a navigation list with one more skip button. -/
theorem skipNodes_append_skipBtn (nav : List NavItem) (b : Nat) (href : JSString) :
    skipNodes (nav ++ [NavItem.skipBtn b href]) = skipNodes nav ++ [b] := by
  simp [skipNodes, NavItem.skipNode, List.filterMap_append]

/-- The static items hold no skip button. -/
theorem skipNodes_statics (statics : List JSString) :
    skipNodes (statics.map NavItem.static) = [] := by
  induction statics with
  | nil => rfl
  | cons a t ih => simp [skipNodes, NavItem.skipNode]

/-- The page as loaded is consistent. -/
theorem Page.initial_consistent (ps : List Problem) (statics : List JSString) :
    (Page.initial statics).Consistent ps := by
  refine ⟨skipNodes_statics statics, ?_, by simp [Page.initial], ?_⟩
  · intro b hb
    have h : skipNodes (Page.initial statics).navList = [] := skipNodes_statics statics
    rw [h] at hb
    exact absurd hb (List.not_mem_nil b)
  · intro v hv
    exact absurd hv (List.not_mem_nil v)

/-- The broadcast of `removingView` leaves no skip button of a consistent page. -/
theorem triggerEvent_skipNodes (ps : List Problem) (page : Page) (hc : page.Consistent ps) :
    skipNodes (triggerEvent "removingView".toList page).navList = [] := by
  obtain ⟨hnav, _, hlen, _⟩ := hc
  have hnav2 : skipNodes (triggerEvent "removingView".toList page).navList
      = skipNodes (page.container.foldl (View.trigger "removingView".toList) page.navList) := rfl
  rw [hnav2]
  cases hcont : page.container with
  | nil =>
    rw [hcont] at hnav
    simpa using hnav
  | cons v rest =>
    cases rest with
    | cons w rest2 => rw [hcont] at hlen; simp at hlen
    | nil =>
      rw [hcont] at hnav
      simp only [List.foldl_cons, List.foldl_nil]
      unfold View.trigger
      cases hb : v.buttonItem with
      | none =>
        simp only [List.filterMap_cons, hb, List.filterMap_nil] at hnav
        exact hnav
      | some b =>
        simp only [List.filterMap_cons, hb, List.filterMap_nil] at hnav
        simp only [if_true]
        rw [skipNodes_removeNode, hnav]
        simp

/-- The two outcomes of `problemView`: a view with a skip button appended to the
navigation list, or a view without and the page as it was. -/
theorem problemView_cases (ps : List Problem) (arg : Option JSString) (page : Page) :
    ∃ t f n d,
      (n.lt (.int ps.length) = true ∧ ∃ href,
        problemView ps arg page
          = (View.problem t f n d (some page.nextNode),
              { page with
                navList := page.navList ++ [NavItem.skipBtn page.nextNode href]
                nextNode := page.nextNode + 1 })) ∨
      (n.lt (.int ps.length) = false ∧
        problemView ps arg page = (View.problem t f n d none, page)) := by
  refine ⟨"Problem #".toList ++ (parseInt arg).toJSString,
    applyObject (index ps ((parseInt arg).sub (.int 1))), parseInt arg,
    index ps ((parseInt arg).sub (.int 1)), ?_⟩
  cases hlt : (parseInt arg).lt (.int ps.length)
  · right
    refine ⟨rfl, ?_⟩
    unfold problemView
    simp only [hlt]
    rfl
  · left
    refine ⟨rfl, "#problem-".toList ++ ((parseInt arg).add (.int 1)).toJSString, ?_⟩
    unfold problemView
    simp only [hlt]
    rfl

/-- On a hash with a known route, `showView` keeps the page consistent, and the
only skip button it can leave is the node it cloned. -/
theorem showView_consistent (ps : List Problem) (identity : Option Identity)
    (hash : JSString) (page : Page) (hc : page.Consistent ps) (hk : matchesKnownRoute hash) :
    (showView ps identity hash page).Consistent ps ∧
      ∀ b ∈ skipNodes (showView ps identity hash page).navList, b = page.nextNode := by
  have hclear := triggerEvent_skipNodes ps page hc
  have simple : ∀ (viewFn : ViewFn) (v : View), v.buttonItem = none → v.wantsSkip ps = false →
      ((page.unmounted viewFn).append v).Consistent ps ∧
        ∀ b ∈ skipNodes ((page.unmounted viewFn).append v).navList, b = page.nextNode := by
    intro viewFn v hv hw
    have hnav : skipNodes ((page.unmounted viewFn).append v).navList = [] := hclear
    have hcont : ((page.unmounted viewFn).append v).container = [v] := rfl
    refine ⟨⟨?_, ?_, ?_, ?_⟩, ?_⟩
    · rw [hnav, hcont]; simp [hv]
    · intro b hb; rw [hnav] at hb; exact absurd hb (List.not_mem_nil b)
    · rw [hcont]; simp
    · intro w hw2
      rw [hcont, List.mem_singleton] at hw2
      rw [hw2, hv, hw]; rfl
    · intro b hb; rw [hnav] at hb; exact absurd hb (List.not_mem_nil b)
  rcases routes_of_known _ hk with ⟨_, hr⟩ | ⟨_, hr⟩ | hr
  · rw [showView_of_route ps identity hash page _ hr]
    obtain ⟨t, f, n, d, ⟨hlt, href, hpv⟩ | ⟨hlt, hpv⟩⟩ :=
      problemView_cases ps (split '-' hash)[1]? (page.unmounted .problemView)
    · simp only [Page.mounted, hpv]
      have hnav : skipNodes (page.unmounted ViewFn.problemView).navList = [] := hclear
      refine ⟨⟨?_, ?_, ?_, ?_⟩, ?_⟩
      · simp only [Page.append]
        rw [skipNodes_append_skipBtn, hnav]
        rfl
      · intro b hb
        simp only [Page.append] at hb ⊢
        rw [skipNodes_append_skipBtn, hnav] at hb
        simp only [List.nil_append, List.mem_singleton] at hb
        rw [hb]; exact Nat.lt_succ_self _
      · simp [Page.append, Page.unmounted]
      · intro w hw
        have hw2 : w = View.problem t f n d (some (page.unmounted ViewFn.problemView).nextNode) := by
          simpa [Page.append, Page.unmounted] using hw
        rw [hw2]
        simp [View.buttonItem, View.wantsSkip, hlt]
      · intro b hb
        simp only [Page.append] at hb
        rw [skipNodes_append_skipBtn, hnav] at hb
        simp only [List.nil_append, List.mem_singleton] at hb
        rw [hb]; rfl
    · simp only [Page.mounted, hpv]
      exact simple .problemView _ rfl (by simp [View.wantsSkip, hlt])
  · rw [showView_of_route ps identity hash page _ hr]
    exact simple .profileView _ rfl rfl
  · rw [showView_of_route ps identity hash page _ hr]
    exact simple .landingView _ rfl rfl

/-- The listeners of a view add no skip button. -/
theorem skipNodes_trigger_subset (name : JSString) (nav : List NavItem) (v : View) (x : Nat)
    (hx : x ∈ skipNodes (View.trigger name nav v)) : x ∈ skipNodes nav := by
  unfold View.trigger at hx
  cases hb : v.buttonItem with
  | none => rw [hb] at hx; exact hx
  | some b =>
    rw [hb] at hx
    by_cases hn : name = "removingView".toList
    · simp only [if_pos hn] at hx
      rw [skipNodes_removeNode] at hx
      exact (List.mem_filter.mp hx).1
    · simp only [if_neg hn] at hx
      exact hx

/-- The listeners of the mounted views add no skip button. -/
theorem skipNodes_foldl_trigger_subset (name : JSString) (views : List View)
    (nav : List NavItem) (x : Nat)
    (hx : x ∈ skipNodes (views.foldl (View.trigger name) nav)) : x ∈ skipNodes nav := by
  induction views generalizing nav with
  | nil => exact hx
  | cons v rest ih =>
    exact skipNodes_trigger_subset name nav v x (ih (View.trigger name nav v) hx)

/-- On any page, the broadcast of `removingView` removes the skip button of
every mounted view that owns one. -/
theorem triggerEvent_removes_button (page : Page) (v : View) (b : Nat)
    (hv : v ∈ page.container) (hb : v.buttonItem = some b) :
    b ∉ skipNodes (triggerEvent "removingView".toList page).navList := by
  have hnav : skipNodes (triggerEvent "removingView".toList page).navList
      = skipNodes (page.container.foldl (View.trigger "removingView".toList) page.navList) := rfl
  rw [hnav]
  generalize page.navList = nav
  generalize page.container = views at hv
  induction views generalizing nav with
  | nil => exact absurd hv (List.not_mem_nil v)
  | cons w rest ih =>
    rw [List.foldl_cons]
    rcases List.mem_cons.mp hv with hw | hw
    · intro hmem
      have h2 := skipNodes_foldl_trigger_subset _ rest _ b hmem
      rw [← hw] at h2
      unfold View.trigger at h2
      rw [hb] at h2
      simp only [if_true] at h2
      rw [skipNodes_removeNode] at h2
      simp at h2
    · exact ih (View.trigger "removingView".toList nav w) hw

/-- On a hash with a known route, the skip buttons `showView` leaves are those
left by the broadcast of `removingView` and the node it cloned. -/
theorem showView_skipNodes (ps : List Problem) (identity : Option Identity)
    (hash : JSString) (page : Page) (hk : matchesKnownRoute hash) (x : Nat)
    (hx : x ∈ skipNodes (showView ps identity hash page).navList) :
    x ∈ skipNodes (triggerEvent "removingView".toList page).navList ∨ x = page.nextNode := by
  rcases routes_of_known _ hk with ⟨_, hr⟩ | ⟨_, hr⟩ | hr
  · rw [showView_of_route ps identity hash page _ hr] at hx
    obtain ⟨t, f, n, d, ⟨_, href, hpv⟩ | ⟨_, hpv⟩⟩ :=
      problemView_cases ps (split '-' hash)[1]? (page.unmounted .problemView)
    · simp only [Page.mounted, hpv, Page.append] at hx
      rw [skipNodes_append_skipBtn, List.mem_append, List.mem_singleton] at hx
      rcases hx with h | h
      · exact Or.inl h
      · exact Or.inr h
    · simp only [Page.mounted, hpv] at hx
      exact Or.inl hx
  · rw [showView_of_route ps identity hash page _ hr] at hx
    exact Or.inl hx
  · rw [showView_of_route ps identity hash page _ hr] at hx
    exact Or.inl hx

/-- Every sequence of hashes with known routes keeps the page consistent. -/
theorem hashChanges_consistent (ps : List Problem) (identity : Option Identity)
    (hashes : List JSString) (page : Page) (hc : page.Consistent ps)
    (hk : ∀ hash ∈ hashes, matchesKnownRoute hash) :
    (hashChanges ps identity hashes page).Consistent ps := by
  induction hashes generalizing page with
  | nil => exact hc
  | cons hash rest ih =>
    have hstep := (showView_consistent ps identity hash page hc
      (hk hash (List.mem_cons_self hash rest))).1
    exact ih (showView ps identity hash page) hstep
      (fun h hh => hk h (List.mem_cons_of_mem hash hh))

/-- C9: after any sequence of hash changes with known routes, starting from the
page as loaded, the navigation list holds at most one skip button, and holds
one exactly when the mounted view is a problem view whose problem number is
below the number of problems. In such a page, when a problem view with a skip
button is mounted, the button is in the navigation list, and `showView` on any
hash with a known route removes it: it is gone after the broadcast of
`removingView`, before the new view is built and mounted, and it is not in the
navigation list `showView` leaves. The removal holds on every page: whenever a
mounted view owns a skip button cloned earlier, `showView` on a hash with a
known route removes that button in the same way. -/
theorem skip_button_removed_on_route_change (ps : List Problem) (identity : Option Identity)
    (statics : List JSString) (hashes : List JSString)
    (hk : ∀ hash ∈ hashes, matchesKnownRoute hash) :
    ((skipNodes (hashChanges ps identity hashes (Page.initial statics)).navList).length ≤ 1 ∧
      ((skipNodes (hashChanges ps identity hashes (Page.initial statics)).navList).length = 1 ↔
        ∃ t f n d b,
          (hashChanges ps identity hashes (Page.initial statics)).container
              = [View.problem t f n d b] ∧
            n.lt (.int ps.length) = true) ∧
      ∀ t f n d b,
        (hashChanges ps identity hashes (Page.initial statics)).container
            = [View.problem t f n d (some b)] →
          b ∈ skipNodes (hashChanges ps identity hashes (Page.initial statics)).navList ∧
            ∀ hash, matchesKnownRoute hash →
              b ∉ skipNodes (triggerEvent "removingView".toList
                    (hashChanges ps identity hashes (Page.initial statics))).navList ∧
                b ∉ skipNodes (showView ps identity hash
                    (hashChanges ps identity hashes (Page.initial statics))).navList) ∧
      ∀ (page : Page) (v : View) (b : Nat) (hash : JSString),
        v ∈ page.container → v.buttonItem = some b → b < page.nextNode →
          matchesKnownRoute hash →
            b ∉ skipNodes (triggerEvent "removingView".toList page).navList ∧
              b ∉ skipNodes (showView ps identity hash page).navList := by
  have hc := hashChanges_consistent ps identity hashes (Page.initial statics)
    (Page.initial_consistent ps statics) hk
  generalize hashChanges ps identity hashes (Page.initial statics) = page at hc ⊢
  obtain ⟨hnav, hfresh, hlen, hown⟩ := hc
  refine ⟨⟨?_, ?_, ?_⟩, ?_⟩
  · rw [hnav]
    exact le_trans (List.length_filterMap_le _ _) hlen
  · constructor
    · intro h1
      rw [hnav] at h1
      cases hcont : page.container with
      | nil => rw [hcont] at h1; simp at h1
      | cons v rest =>
        cases rest with
        | cons w rest2 => rw [hcont] at hlen; simp at hlen
        | nil =>
          have hv := hown v (by rw [hcont]; exact List.mem_singleton_self v)
          rw [hcont] at h1
          cases v with
          | landing => simp [View.buttonItem] at h1
          | profile email => simp [View.buttonItem] at h1
          | problem t f n d b =>
            refine ⟨t, f, n, d, b, rfl, ?_⟩
            cases b with
            | none => simp [View.buttonItem] at h1
            | some x => simpa [View.buttonItem, View.wantsSkip] using hv.symm
    · rintro ⟨t, f, n, d, b, hcont, hlt⟩
      have hv := hown (View.problem t f n d b) (by rw [hcont]; exact List.mem_singleton_self _)
      rw [hnav, hcont]
      cases b with
      | none => simp [View.buttonItem, View.wantsSkip, hlt] at hv
      | some x => simp [View.buttonItem]
  · intro t f n d b hcont
    have hmem : b ∈ skipNodes page.navList := by
      rw [hnav, hcont]; simp [View.buttonItem]
    refine ⟨hmem, ?_⟩
    intro hash hkh
    constructor
    · rw [triggerEvent_skipNodes ps page ⟨hnav, hfresh, hlen, hown⟩]
      exact List.not_mem_nil b
    · intro hb
      have hnew := (showView_consistent ps identity hash page ⟨hnav, hfresh, hlen, hown⟩ hkh).2 b hb
      have hold := hfresh b hmem
      omega
  · intro page2 v b hash hv hb hlt hkh
    have hgone := triggerEvent_removes_button page2 v b hv hb
    refine ⟨hgone, fun hmem => ?_⟩
    rcases showView_skipNodes ps identity hash page2 hkh b hmem with h | h
    · exact hgone h
    · omega

/-- C9 on the application's list: after the hashes `#` and `#problem-1` the skip
button of problem 1, node 0, is in the navigation list, and `showView` on
`#profile` removes it. -/
theorem skip_button_removed_on_route_change_witness :
    (∀ hash ∈ ["#".toList, "#problem-1".toList], matchesKnownRoute hash) ∧
      (0 ∈ skipNodes (hashChanges problems none ["#".toList, "#problem-1".toList]
            (Page.initial ["Start".toList])).navList ∧
        ∀ hash, matchesKnownRoute hash →
          0 ∉ skipNodes (triggerEvent "removingView".toList
                (hashChanges problems none ["#".toList, "#problem-1".toList]
                  (Page.initial ["Start".toList]))).navList ∧
            0 ∉ skipNodes (showView problems none hash
                (hashChanges problems none ["#".toList, "#problem-1".toList]
                  (Page.initial ["Start".toList]))).navList) :=
  ⟨by decide,
    (skip_button_removed_on_route_change problems none ["Start".toList]
      ["#".toList, "#problem-1".toList] (by decide)).1.2.2
      ("Problem #1".toList)
      [("description".toList, "What is truth?".toList),
        ("code".toList, "function problem() \x7b return __; \x7d".toList)]
      (.int 1)
      (some { description := "What is truth?".toList,
              code := "function problem() \x7b return __; \x7d".toList })
      0 (by decide)⟩

end LearnJS
